import Mathlib

/-!
Verification of the XBURN-index resilient indexing engine.

This file gives a shallow embedding of the decision logic of the indexer:

* `src/src/indexer/chain-indexer.ts` — `ChainIndexer.start`, `ChainIndexer.indexLoop`,
  `ChainIndexer.processBatch`, `ChainIndexer.processEvents`, and the module constants
  `REORG_DEPTH`, `MAX_RETRIES`;
* `src/src/config.ts` — the static chain configurations, `indexerConfig`, and the
  `RPCProvider.switchProvider` endpoint-failover logic;
* `src/src/indexer/health.ts` — `IndexerHealthMonitor.checkChainHealth`.

Database effects are modelled as explicit state (`DBState`): each SQL statement the
indexer issues becomes a pure update of that state, with `INSERT ... ON CONFLICT
(tx_hash) DO NOTHING` modelled as a key-guarded append (the per-chain event tables
created by `create_chain_tables` all declare `tx_hash ... UNIQUE`).  JavaScript
number/`null` truthiness is modelled explicitly where the code relies on it.
-/

namespace XBurnIndex

/-! ### String helpers mirroring the JavaScript primitives used by the source -/

/-- JS `String.prototype.toLowerCase` on the ASCII strings (hex addresses, error
messages) that the indexer compares. -/
def lowerStr (s : String) : String := ⟨s.data.map Char.toLower⟩

/-- Helper for `strIncludes`: does `pat` occur at the head of `s`? -/
def startsWithChars : List Char → List Char → Bool
  | [], _ => true
  | _ :: _, [] => false
  | p :: ps, c :: cs => p == c && startsWithChars ps cs

/-- Helper for `strIncludes`: does `pat` occur anywhere in `s`? -/
def hasSubChars (pat : List Char) : List Char → Bool
  | [] => startsWithChars pat []
  | c :: rest => startsWithChars pat (c :: rest) || hasSubChars pat rest

/-- JS `String.prototype.includes`, used by the error classifiers. -/
def strIncludes (s pat : String) : Bool := hasSubChars pat.data s.data

/-! ### Static configuration (`src/src/config.ts`) -/

/-- The `contracts` block of a `ChainConfig`. -/
structure ContractAddresses where
  xen : String
  xburnMinter : String
  xburnNft : String
deriving DecidableEq

/-- `ChainConfig` from `src/src/config.ts` (the fields the indexing logic reads;
`rpcUrls`/`gasPrice` are consumed elsewhere). -/
structure ChainConfig where
  id : Nat
  name : String
  contracts : ContractAddresses
  startBlock : Nat
  batchSize : Option Nat := none
deriving DecidableEq

/-- `indexerConfig` from `src/src/config.ts` (numeric fields; env parsing elided). -/
structure IndexerConfig where
  pollingInterval : Nat
  batchSize : Nat
  maxRetries : Nat
  retryDelay : Nat
  maxBackoffDelay : Nat
  minProviderSwitchInterval : Nat
deriving DecidableEq

/-- The default values of `indexerConfig` (no environment overrides):
`pollingInterval=15000`, `batchSize=250`, `maxRetries=5`, `retryDelay=5000`,
`maxBackoffDelay=60000`, `minProviderSwitchInterval=10000`. -/
def indexerConfigDefaults : IndexerConfig :=
  { pollingInterval := 15000
    batchSize := 250
    maxRetries := 5
    retryDelay := 5000
    maxBackoffDelay := 60000
    minProviderSwitchInterval := 10000 }

/-- The `base` entry of `chains` in `src/src/config.ts`. -/
def baseChain : ChainConfig :=
  { id := 8453
    name := "Base"
    contracts :=
      { xen := "0xffcbF84650cE02DaFE96926B37a0ac5E34932fa5"
        xburnMinter := "0xe89AFDeFeBDba033f6e750615f0A0f1A37C78c4A"
        xburnNft := "0x305c60d2fef49fadfee67ec530de98f67bac861d" }
    startBlock := 29193678 }

/-- The `optimism` entry of `chains` in `src/src/config.ts` (per-chain `batchSize: 50`). -/
def optimismChain : ChainConfig :=
  { id := 10
    name := "Optimism"
    contracts :=
      { xen := "0xeB585163DEbB1E637c6D617de3bEF99347cd75c8"
        xburnMinter := "0x9d16374c01Cf785b6dB5B02A830E00C40c5381D8"
        xburnNft := "0xd7dd1997ed8d5b836099e5d28fed1a9d8e9cc723" }
    startBlock := 135077350
    batchSize := some 50 }

/-! ### Module constants of `src/src/indexer/chain-indexer.ts` (lines 10-12) -/

/-- `const REORG_DEPTH = 20`. -/
def REORG_DEPTH : Nat := 20

/-- `const MAX_RETRIES = 10` — the retry ceiling used by `processBatch`. -/
def MAX_RETRIES : Nat := 10

/-! ### `ChainIndexer.start` (chain-indexer.ts lines 179-199) -/

/-- The value `ChainIndexer.start` assigns to `lastProcessedBlock` (the in-memory
watermark) before entering `indexLoop`.  `lastIndexedBlock` models the
`chains.last_indexed_block` column read at start-up (`none` = no row / NULL; the
code guards with JS truthiness, so a stored `0` also falls back to the configured
start block).  When a watermark is present the code computes
`Math.max(startBlock, last_indexed_block - REORG_DEPTH)`. -/
def startPosition (cfg : ChainConfig) (lastIndexedBlock : Option Nat) : Nat :=
  match lastIndexedBlock with
  | some w => if w ≠ 0 then max cfg.startBlock (w - REORG_DEPTH) else cfg.startBlock
  | none => cfg.startBlock

/-- C1: with no persisted watermark, indexing starts at the configured start block
(for Base, 29193678, not 0); with a persisted watermark `w` it resumes from
`max(startBlock, w - 20)` (stated over ℤ so the subtraction is the JS one), and the
start position never drops below the configured start block.  The concrete spec
scenarios (startBlock=29193678 with no watermark; watermark=500000 with
startBlock=100000 resuming at 499980) are included. -/
theorem start_rewinds_watermark_clamped :
    (∀ cfg : ChainConfig, startPosition cfg none = cfg.startBlock) ∧
    startPosition baseChain none = 29193678 ∧
    (∀ (cfg : ChainConfig) (w : ℕ),
      (startPosition cfg (some w) : ℤ) = max (cfg.startBlock : ℤ) ((w : ℤ) - REORG_DEPTH)) ∧
    (∀ (cfg : ChainConfig) (ws : Option ℕ), cfg.startBlock ≤ startPosition cfg ws) ∧
    startPosition { id := 0, name := "", contracts := ⟨"", "", ""⟩, startBlock := 100000 }
      (some 500000) = 499980 := by
  refine ⟨fun cfg => rfl, rfl, fun cfg w => ?_, fun cfg ws => ?_, by decide⟩
  · unfold startPosition REORG_DEPTH
    by_cases hw : w = 0 <;> simp only [hw, if_true, if_false, ne_eq, not_true_eq_false,
      not_false_eq_true, ite_true, ite_false] <;> push_cast <;> omega
  · cases ws with
    | none => simp [startPosition]
    | some w =>
      by_cases hw : w = 0
      · simp [startPosition, hw]
      · simp only [startPosition, hw, ne_eq, not_false_eq_true, ite_true]
        omega

/-! ### Event model (`ProcessedEvent` construction, chain-indexer.ts lines 260-304) -/

/-- The `contract` string assigned to each fetched event in `processBatch`
(lines 281-291). -/
inductive ContractTag
  | xen
  | burn
  | nft
  | swapAndBurn
  | liquidityAdded
  | unknown
deriving DecidableEq

/-- The decoded argument dictionary of an event (`event.args`).  Every lookup the
indexer performs is a named field; a missing entry (JS `undefined`) is `none`. -/
structure EventArgs where
  toAddr : Option String := none
  fromAddr : Option String := none
  value : Option Nat := none
  user : Option String := none
  token : Option String := none
  tokenId : Option Nat := none
  amount : Option Nat := none
  lockDuration : Option Nat := none
  tokenAmount : Option Nat := none
  xenAmount : Option Nat := none
deriving DecidableEq

/-- An `ethers.EventLog` as consumed by the indexer (the fields it reads). -/
structure RawEvent where
  address : String
  eventName : String
  blockNumber : Nat
  transactionHash : String
  args : EventArgs
deriving DecidableEq

/-- The `ProcessedEvent` interface of chain-indexer.ts (lines 14-19), with
`blockTimestamp` in seconds. -/
structure ProcessedEvent where
  contract : ContractTag
  event : RawEvent
  blockTimestamp : Nat
deriving DecidableEq

/-- Contract classification in `processBatch` (lines 281-291): the emitting address
is compared lowercased against the three configured contract addresses; events from
the minter are further dispatched on `eventName`. -/
def contractTagOf (cfg : ChainConfig) (e : RawEvent) : ContractTag :=
  if lowerStr e.address = lowerStr cfg.contracts.xen then .xen
  else if lowerStr e.address = lowerStr cfg.contracts.xburnMinter then
    (if e.eventName = "XENBurned" then .burn
     else if e.eventName = "SwapAndBurn" then .swapAndBurn
     else if e.eventName = "LiquidityAdded" then .liquidityAdded
     else .unknown)
  else if lowerStr e.address = lowerStr cfg.contracts.xburnNft then .nft
  else .unknown

/-- The `ProcessedEvent` built for one fetched log in `processBatch` (lines 279-299);
`ts` is the resolved block timestamp. -/
def toProcessedEvent (cfg : ChainConfig) (ts : Nat) (e : RawEvent) : ProcessedEvent :=
  { contract := contractTagOf cfg e, event := e, blockTimestamp := ts }

/-! ### Rows pushed by `processEvents` (chain-indexer.ts lines 369-452) -/

/-- A row of `chain_<id>_xen_burns` as pushed at lines 399-405; timestamps are the
JS `Date` value in milliseconds (`blockTimestamp * 1000`). -/
structure XenBurnRow where
  txHash : String
  blockNumber : Nat
  fromAddr : Option String
  amount : Option Nat
  blockTimestampMs : Nat
deriving DecidableEq

/-- A row of `chain_<id>_burn_nft_positions` as pushed at lines 408-417. -/
structure NftPositionRow where
  txHash : String
  blockNumber : Nat
  user : Option String
  tokenId : Option Nat
  amount : Option Nat
  lockDuration : Option Nat
  blockTimestampMs : Nat
  maturityMs : Nat
deriving DecidableEq

/-- A row of `chain_<id>_swap_burns` as pushed at lines 420-428. -/
structure SwapBurnRow where
  txHash : String
  blockNumber : Nat
  user : Option String
  token : Option String
  tokenAmount : Option Nat
  xenAmount : Option Nat
  blockTimestampMs : Nat
deriving DecidableEq

/-- A row of `chain_<id>_liquidity_added` as pushed at lines 431-439. -/
structure LiquidityRow where
  txHash : String
  blockNumber : Nat
  user : Option String
  token : Option String
  tokenAmount : Option Nat
  xenAmount : Option Nat
  blockTimestampMs : Nat
deriving DecidableEq

/-- A row of `event_processing_log` (the `baseEventLog` of lines 387-395; the
wall-clock `processed_at` is elided as nondeterministic, and our model has no
decode exceptions so `status` is always the literal written on the success path). -/
structure EventLogRow where
  chainId : String
  contractType : ContractTag
  eventType : String
  blockNumber : Nat
  txHash : String
  status : String
deriving DecidableEq

/-- Row constructor matching lines 399-405. -/
def mkXenBurnRow (p : ProcessedEvent) : XenBurnRow :=
  { txHash := p.event.transactionHash
    blockNumber := p.event.blockNumber
    fromAddr := p.event.args.fromAddr
    amount := p.event.args.value
    blockTimestampMs := p.blockTimestamp * 1000 }

/-- Row constructor matching lines 408-417 (`maturity = ts*1000 + lockDuration
days`, a missing duration modelled as 0). -/
def mkNftPositionRow (p : ProcessedEvent) : NftPositionRow :=
  { txHash := p.event.transactionHash
    blockNumber := p.event.blockNumber
    user := p.event.args.user
    tokenId := p.event.args.tokenId
    amount := p.event.args.amount
    lockDuration := p.event.args.lockDuration
    blockTimestampMs := p.blockTimestamp * 1000
    maturityMs := p.blockTimestamp * 1000 + (p.event.args.lockDuration.getD 0) * 86400000 }

/-- Row constructor matching lines 420-428. -/
def mkSwapBurnRow (p : ProcessedEvent) : SwapBurnRow :=
  { txHash := p.event.transactionHash
    blockNumber := p.event.blockNumber
    user := p.event.args.user
    token := p.event.args.token
    tokenAmount := p.event.args.tokenAmount
    xenAmount := p.event.args.xenAmount
    blockTimestampMs := p.blockTimestamp * 1000 }

/-- Row constructor matching lines 431-439. -/
def mkLiquidityRow (p : ProcessedEvent) : LiquidityRow :=
  { txHash := p.event.transactionHash
    blockNumber := p.event.blockNumber
    user := p.event.args.user
    token := p.event.args.token
    tokenAmount := p.event.args.tokenAmount
    xenAmount := p.event.args.xenAmount
    blockTimestampMs := p.blockTimestamp * 1000 }

/-- The `baseEventLog` of lines 387-395 (note it uses `chainConfig.id.toString()`). -/
def mkEventLogRow (cfg : ChainConfig) (p : ProcessedEvent) : EventLogRow :=
  { chainId := toString cfg.id
    contractType := p.contract
    eventType := p.event.eventName
    blockNumber := p.event.blockNumber
    txHash := p.event.transactionHash
    status := "success" }

/-- The guard of line 398: a `xen`-tagged event whose `to` argument, lowercased,
equals the lowercased minter address. -/
def isBurnTransfer (cfg : ChainConfig) (p : ProcessedEvent) : Bool :=
  p.contract == ContractTag.xen &&
    (match p.event.args.toAddr with
     | some a => lowerStr a == lowerStr cfg.contracts.xburnMinter
     | none => false)

/-- The per-variant accumulator lists of `processEvents` (lines 379-383). -/
structure EventGroups where
  xenBurns : List XenBurnRow := []
  nftPositions : List NftPositionRow := []
  swapBurns : List SwapBurnRow := []
  liquidityAdds : List LiquidityRow := []
  eventLogs : List EventLogRow := []
deriving DecidableEq

/-- One iteration of the grouping loop of `processEvents` (lines 386-452): the
`if/else if` chain appends the event's row to at most one variant list and always
appends a processing-log entry. -/
def groupStep (cfg : ChainConfig) (g : EventGroups) (p : ProcessedEvent) : EventGroups :=
  if isBurnTransfer cfg p then
    { g with xenBurns := g.xenBurns ++ [mkXenBurnRow p]
             eventLogs := g.eventLogs ++ [mkEventLogRow cfg p] }
  else if p.contract == ContractTag.nft then
    { g with nftPositions := g.nftPositions ++ [mkNftPositionRow p]
             eventLogs := g.eventLogs ++ [mkEventLogRow cfg p] }
  else if p.contract == ContractTag.swapAndBurn then
    { g with swapBurns := g.swapBurns ++ [mkSwapBurnRow p]
             eventLogs := g.eventLogs ++ [mkEventLogRow cfg p] }
  else if p.contract == ContractTag.liquidityAdded then
    { g with liquidityAdds := g.liquidityAdds ++ [mkLiquidityRow p]
             eventLogs := g.eventLogs ++ [mkEventLogRow cfg p] }
  else
    { g with eventLogs := g.eventLogs ++ [mkEventLogRow cfg p] }

/-- The grouping loop of `processEvents` over the whole batch. -/
def groupEvents (cfg : ChainConfig) (events : List ProcessedEvent) : EventGroups :=
  events.foldl (groupStep cfg) {}

/-! ### Persistence (`processEvents` lines 454-613, modelled as pure state) -/

/-- `INSERT ... ON CONFLICT (tx_hash) DO NOTHING` for a single row of a table whose
`key` column carries a UNIQUE constraint (`create_chain_tables` declares
`tx_hash ... UNIQUE` on every per-chain event table): the row is appended unless its
key is already present, and a conflict is silently dropped — the operation returns
the table, never an error. -/
def insertOnConflictDoNothing {α : Type} (key : α → String) (t : List α) (r : α) : List α :=
  if t.any (fun x => key x == key r) then t else t ++ [r]

/-- The batched `INSERT ... SELECT * FROM UNNEST(...) ON CONFLICT (tx_hash) DO
NOTHING` statements: rows are inserted in order, each skipped if its key is already
present (Postgres `DO NOTHING` also skips conflicts arising within the same batch). -/
def insertManyOnConflictDoNothing {α : Type} (key : α → String) (t : List α)
    (rs : List α) : List α :=
  rs.foldl (insertOnConflictDoNothing key) t

/-- One `SELECT update_user_stats($1,...,$9)` invocation with its nine arguments
(lines 477-490, 514-527, 550-563). -/
structure UserStatsCall where
  chainId : String
  userAddress : Option String
  xenBurned : Option Nat
  burnCount : Nat
  nftPositionCount : Nat
  xenLocked : Option Nat
  swapBurnCount : Nat
  xenSwapped : Option Nat
  timestampMs : Nat
deriving DecidableEq

/-- The `update_user_stats` call issued for one xen-burn row (lines 477-490). -/
def burnStatsCall (chainId : String) (r : XenBurnRow) : UserStatsCall :=
  { chainId := chainId, userAddress := r.fromAddr, xenBurned := r.amount
    burnCount := 1, nftPositionCount := 0, xenLocked := some 0
    swapBurnCount := 0, xenSwapped := some 0, timestampMs := r.blockTimestampMs }

/-- The `update_user_stats` call issued for one NFT-position row (lines 514-527). -/
def nftStatsCall (chainId : String) (r : NftPositionRow) : UserStatsCall :=
  { chainId := chainId, userAddress := r.user, xenBurned := some 0
    burnCount := 0, nftPositionCount := 1, xenLocked := r.amount
    swapBurnCount := 0, xenSwapped := some 0, timestampMs := r.blockTimestampMs }

/-- The `update_user_stats` call issued for one swap-burn row (lines 550-563). -/
def swapStatsCall (chainId : String) (r : SwapBurnRow) : UserStatsCall :=
  { chainId := chainId, userAddress := r.user, xenBurned := some 0
    burnCount := 0, nftPositionCount := 0, xenLocked := some 0
    swapBurnCount := 1, xenSwapped := r.xenAmount, timestampMs := r.blockTimestampMs }

/-- The database state touched by one chain's indexer: the four per-chain event
variant tables, the processing log, the stream of `update_user_stats` /
`update_chain_stats` calls (derived aggregates), and the `chains.last_indexed_block`
watermark column. -/
structure DBState where
  xenBurns : List XenBurnRow := []
  nftPositions : List NftPositionRow := []
  swapBurns : List SwapBurnRow := []
  liquidityAdds : List LiquidityRow := []
  eventLog : List EventLogRow := []
  userStatsCalls : List UserStatsCall := []
  chainStatsCalls : Nat := 0
  lastIndexedBlock : Option Nat := none
deriving DecidableEq

/-- `ChainIndexer.processEvents` (lines 369-613): early-returns on an empty event
list; otherwise groups the events, batch-inserts each variant list with
`ON CONFLICT (tx_hash) DO NOTHING`, issues one `update_user_stats` call per grouped
xen-burn / NFT-position / swap-burn row (liquidity rows get none), appends the
processing-log rows, and calls `update_chain_stats` once — all in one committed
transaction. -/
def processEvents (chainId : String) (cfg : ChainConfig) (db : DBState)
    (events : List ProcessedEvent) : DBState :=
  if events.isEmpty then db
  else
    let g := groupEvents cfg events
    { db with
      xenBurns := insertManyOnConflictDoNothing XenBurnRow.txHash db.xenBurns g.xenBurns
      nftPositions :=
        insertManyOnConflictDoNothing NftPositionRow.txHash db.nftPositions g.nftPositions
      swapBurns := insertManyOnConflictDoNothing SwapBurnRow.txHash db.swapBurns g.swapBurns
      liquidityAdds :=
        insertManyOnConflictDoNothing LiquidityRow.txHash db.liquidityAdds g.liquidityAdds
      eventLog := db.eventLog ++ g.eventLogs
      userStatsCalls := db.userStatsCalls
        ++ g.xenBurns.map (burnStatsCall chainId)
        ++ g.nftPositions.map (nftStatsCall chainId)
        ++ g.swapBurns.map (swapStatsCall chainId)
      chainStatsCalls := db.chainStatsCalls + 1 }

/-! ### `ChainIndexer.indexLoop` (chain-indexer.ts lines 325-367) -/

/-- Constructor line 116: `this._batchSize = chainConfig.batchSize ||
indexerConfig.batchSize` (JS `||`: an absent — or zero — per-chain value falls back
to the global default). -/
def effectiveBatchSize (cfg : ChainConfig) (g : IndexerConfig) : Nat :=
  match cfg.batchSize with
  | some b => if b ≠ 0 then b else g.batchSize
  | none => g.batchSize

/-- The indexer's mutable per-chain state: the in-memory watermark
`lastProcessedBlock` (`none` = the JS `null` initial value) and the database. -/
structure IndexerState where
  lastProcessedBlock : Option Nat
  db : DBState
deriving DecidableEq

/-- The observable outcome of one `indexLoop` iteration: the successor state, the
block range handed to `processBatch` (if any), and the `setTimeout` delay before
the next iteration. -/
structure IterResult where
  state : IndexerState
  processedRange : Option (Nat × Nat)
  sleepMs : Nat
deriving DecidableEq

/-- One iteration of `indexLoop` (lines 325-367).  `latestBlock` is the height
reported by the provider and `batchOutcome` the result of `processBatch` on the
computed range (`.error` = the exception it re-threw).  The guard
`if (!this.lastProcessedBlock) throw` makes both `null` and `0` take the error
path, which — like a failed batch — leaves all state untouched and re-schedules
after `pollingInterval`.  On `latestBlock > lastProcessedBlock` the batch is
`[w+1, min(w + batchSize, latestBlock)]`; on success the watermark advances to the
end block both in memory and in the `chains` table. -/
def indexLoopIter (chainId : String) (cfg : ChainConfig) (g : IndexerConfig)
    (latestBlock : Nat) (st : IndexerState)
    (batchOutcome : Except String (List ProcessedEvent)) : IterResult :=
  match st.lastProcessedBlock with
  | none => { state := st, processedRange := none, sleepMs := g.pollingInterval }
  | some w =>
    if w = 0 then { state := st, processedRange := none, sleepMs := g.pollingInterval }
    else if latestBlock > w then
      let endBlock := min (w + effectiveBatchSize cfg g) latestBlock
      match batchOutcome with
      | .ok events =>
        let db1 := processEvents chainId cfg st.db events
        { state :=
            { lastProcessedBlock := some endBlock
              db := { db1 with lastIndexedBlock := some endBlock } }
          processedRange := some (w + 1, endBlock)
          sleepMs := g.pollingInterval }
      | .error _ =>
        { state := st, processedRange := some (w + 1, endBlock), sleepMs := g.pollingInterval }
    else { state := st, processedRange := none, sleepMs := g.pollingInterval }

/-! ### `ChainIndexer.processBatch` retry logic (chain-indexer.ts lines 306-322) -/

/-- The transient-error test of `processBatch` (lines 308-314): the caught message
is retried only if it contains one of `rate limit`, `429`, `exceeded`,
`too many requests`, `timeout`. -/
def isTransientBatchError (msg : String) : Bool :=
  strIncludes msg "rate limit" || strIncludes msg "429" || strIncludes msg "exceeded" ||
    strIncludes msg "too many requests" || strIncludes msg "timeout"

/-- `exponentialBackoff` (lines 219-223): `min(retryDelay * 2^retryCount,
maxBackoffDelay)` milliseconds. -/
def backoffDelay (g : IndexerConfig) (retryCount : Nat) : Nat :=
  min (g.retryDelay * 2 ^ retryCount) g.maxBackoffDelay

/-- The retry loop of `processBatch` on one batch, starting at `retryCount`.
`attemptOutcomes` lists each successive attempt's outcome (`none` = the attempt
succeeded, `some msg` = it threw `msg`; an exhausted list means the next attempt
succeeds).  Returns the backoff delays slept and either success or the propagated
error: a transient failure below `MAX_RETRIES` sleeps `backoffDelay` and retries the
same batch; anything else re-throws. -/
def processBatchRun (g : IndexerConfig) (retryCount : Nat) :
    List (Option String) → List Nat × Except String Unit
  | [] => ([], .ok ())
  | o :: rest =>
    match o with
    | none => ([], .ok ())
    | some msg =>
      if isTransientBatchError msg = true ∧ retryCount < MAX_RETRIES then
        let r := processBatchRun g (retryCount + 1) rest
        (backoffDelay g retryCount :: r.1, r.2)
      else ([], .error msg)

/-! ### `RPCProvider.switchProvider` (config.ts provider module, lines 584-609) -/

/-- The per-endpoint health record of the provider pool (`ProviderHealth`). -/
structure EndpointHealth where
  lastSuccess : Nat
  lastFailure : Nat
  failureCount : Nat
  latency : Nat
  isHealthy : Bool
deriving DecidableEq

/-- The pool state read and written by `switchProvider`: the `providerHealth` map
entries in insertion order, the active URL, and the time of the last switch. -/
structure PoolState where
  health : List (String × EndpointHealth)
  currentProviderUrl : String
  lastProviderSwitch : Nat
deriving DecidableEq

/-- Lines 590-592: the healthy endpoints other than the current one, sorted
ascending by recorded latency (`.sort((a, b) => a.latency - b.latency)`; JS sort is
stable, as is `mergeSort`). -/
def healthyCandidates (st : PoolState) : List (String × EndpointHealth) :=
  (st.health.filter (fun p => p.2.isHealthy && p.1 != st.currentProviderUrl)).mergeSort
    (fun a b => a.2.latency ≤ b.2.latency)

/-- `switchProvider` (lines 584-609) at wall-clock `now`: debounce-guarded by
`minSwitchInterval`; picks the head of `healthyCandidates` if any, else keeps the
current endpoint.  The boolean reports whether the `Switched RPC provider` branch
ran. -/
def switchProvider (minSwitchInterval : Nat) (now : Nat) (st : PoolState) :
    PoolState × Bool :=
  if now - st.lastProviderSwitch < minSwitchInterval then (st, false)
  else
    match healthyCandidates st with
    | [] => (st, false)
    | (newUrl, _) :: _ =>
      ({ st with currentProviderUrl := newUrl, lastProviderSwitch := now }, true)

/-! ### `IndexerHealthMonitor.checkChainHealth` (health.ts lines 52-117) -/

/-- The outcome of one health tick's RPC-and-database work for a chain: either the
measured height, latency and stored watermark, or the failure message of whatever
step threw. -/
inductive HealthQueryOutcome
  | ok (latestBlock : Nat) (rpcLatencyMs : Nat) (lastIndexedBlock : Option Nat)
  | failed (errorMessage : String)
deriving DecidableEq

/-- The argument tuple of one `SELECT update_chain_health($1,...,$6)` upsert —
the persisted `ChainHealthSnapshot`. -/
structure ChainHealthRow where
  chainId : String
  isHealthy : Bool
  errorMessage : Option String
  blocksBehind : Option Int
  rpcLatencyMs : Option Nat
  currentRpcUrl : String
deriving DecidableEq

/-- `checkChainHealth` (lines 52-117): on success it upserts a healthy snapshot
with `blocksBehind = latestBlock - (last_indexed_block || 0)`; the catch block
absorbs any failure and upserts `healthy=false` with the error message and null
blocks-behind / latency.  The function always produces exactly one upsert. -/
def checkChainHealth (chainId : String) (currentRpcUrl : String)
    (outcome : HealthQueryOutcome) : ChainHealthRow :=
  match outcome with
  | .ok latestBlock rpcLatencyMs lastIndexedBlock =>
    { chainId := chainId, isHealthy := true, errorMessage := none
      blocksBehind := some ((latestBlock : Int) - (lastIndexedBlock.getD 0 : Int))
      rpcLatencyMs := some rpcLatencyMs, currentRpcUrl := currentRpcUrl }
  | .failed msg =>
    { chainId := chainId, isHealthy := false, errorMessage := some msg
      blocksBehind := none, rpcLatencyMs := none, currentRpcUrl := currentRpcUrl }

/-- `checkAllChains` (lines 36-50): every configured chain's check runs inside its
own failure boundary, so each entry yields its snapshot regardless of the others. -/
def checkAllChains (entries : List (String × String × HealthQueryOutcome)) :
    List ChainHealthRow :=
  entries.map (fun e => checkChainHealth e.1 e.2.1 e.2.2)

/-! ### Claim C2 — batch windowing -/

/-- C2: whenever the reported chain height exceeds the (initialised, hence nonzero)
watermark, the range handed to `processBatch` is exactly
`[w+1, min(w + batchSize, height)]`, where `batchSize` is the per-chain override if
present, otherwise the global default — independent of how the batch then fares.
The hypothesis that a present override is nonzero reflects every configuration in
the source (overrides are 50); a zero override would be eaten by the JS `||`. -/
theorem batch_window_is_height_capped (chainId : String) (cfg : ChainConfig)
    (g : IndexerConfig) (latestBlock w : Nat) (st : IndexerState)
    (outcome : Except String (List ProcessedEvent))
    (hw : st.lastProcessedBlock = some w) (hw0 : w ≠ 0)
    (hb : ∀ b, cfg.batchSize = some b → b ≠ 0)
    (hlt : latestBlock > w) :
    (indexLoopIter chainId cfg g latestBlock st outcome).processedRange
      = some (w + 1, min (w + cfg.batchSize.getD g.batchSize) latestBlock) := by
  have hbs : effectiveBatchSize cfg g = cfg.batchSize.getD g.batchSize := by
    unfold effectiveBatchSize
    cases hcb : cfg.batchSize with
    | none => rfl
    | some b => simp [hb b hcb]
  simp only [indexLoopIter, hw]
  rw [if_neg hw0, if_pos hlt]
  cases outcome <;> simp [hbs]

/-- Witness for C2 at the claim's concrete scenario: watermark 1000, height 1050,
per-chain batchSize 100 — the computed batch is 1001–1050, not 1001–1100. -/
theorem batch_window_is_height_capped_witness :
    (indexLoopIter "8453"
        { id := 8453, name := "", contracts := ⟨"", "", ""⟩, startBlock := 1,
          batchSize := some 100 }
        indexerConfigDefaults 1050 { lastProcessedBlock := some 1000, db := {} }
        (.ok [])).processedRange = some (1001, 1050) := by
  rw [batch_window_is_height_capped "8453"
    { id := 8453, name := "", contracts := ⟨"", "", ""⟩, startBlock := 1,
      batchSize := some 100 }
    indexerConfigDefaults 1050 1000 { lastProcessedBlock := some 1000, db := {} }
    (.ok []) rfl (by decide) (fun b hb => by simp at hb; omega) (by decide)]
  decide

/-! ### Claim C3 — idempotent persistence -/

/-- A conflicting single insert leaves the table unchanged. -/
lemma insert_key_present {α : Type} (key : α → String) (t : List α) (r : α)
    (h : t.any (fun x => key x == key r) = true) :
    insertOnConflictDoNothing key t r = t := by
  simp [insertOnConflictDoNothing, h]

/-- Key presence is preserved by a single insert. -/
lemma any_key_insert {α : Type} (key : α → String) (t : List α) (r s : α)
    (h : t.any (fun x => key x == key s) = true) :
    ((insertOnConflictDoNothing key t r).any (fun x => key x == key s)) = true := by
  unfold insertOnConflictDoNothing
  split
  · exact h
  · simp only [List.any_append, h, Bool.true_or]

/-- After inserting `r`, the key of `r` is present. -/
lemma insert_gains_key {α : Type} (key : α → String) (t : List α) (r : α) :
    ((insertOnConflictDoNothing key t r).any (fun x => key x == key r)) = true := by
  unfold insertOnConflictDoNothing
  split
  · assumption
  · simp [List.any_append]

/-- Key presence is preserved by a batched insert. -/
lemma insertMany_preserves_key {α : Type} (key : α → String) (rs : List α) :
    ∀ (t : List α) (s : α), t.any (fun x => key x == key s) = true →
      (insertManyOnConflictDoNothing key t rs).any (fun x => key x == key s) = true := by
  induction rs with
  | nil => intro t s h; exact h
  | cons r rs ih => intro t s h; exact ih _ s (any_key_insert key t r s h)

/-- After a batched insert of `rs`, every key of `rs` is present. -/
lemma insertMany_gains_key {α : Type} (key : α → String) (rs : List α) :
    ∀ (t : List α) (r : α), r ∈ rs →
      (insertManyOnConflictDoNothing key t rs).any (fun x => key x == key r) = true := by
  induction rs with
  | nil => intro t r h; cases h
  | cons a rs ih =>
    intro t r h
    rcases List.mem_cons.mp h with h1 | h2
    · subst h1
      exact insertMany_preserves_key key rs _ r (insert_gains_key key t r)
    · exact ih _ r h2

/-- A batched insert of rows whose keys are all present is a no-op. -/
lemma insertMany_no_new {α : Type} (key : α → String) (rs : List α) :
    ∀ t : List α, (∀ r ∈ rs, t.any (fun x => key x == key r) = true) →
      insertManyOnConflictDoNothing key t rs = t := by
  induction rs with
  | nil => intro t _; rfl
  | cons a rs ih =>
    intro t h
    have step : insertManyOnConflictDoNothing key t (a :: rs)
        = insertManyOnConflictDoNothing key (insertOnConflictDoNothing key t a) rs := rfl
    rw [step, insert_key_present key t a (h a (List.mem_cons_self a rs))]
    exact ih t (fun r hr => h r (List.mem_cons_of_mem a hr))

/-- Replaying a batched insert is a no-op. -/
lemma insertMany_idem {α : Type} (key : α → String) (t rs : List α) :
    insertManyOnConflictDoNothing key (insertManyOnConflictDoNothing key t rs) rs
      = insertManyOnConflictDoNothing key t rs :=
  insertMany_no_new key rs _ (fun r hr => insertMany_gains_key key rs t r hr)

/-- C3: persisting the same decoded records twice (as after a restart with reorg
rewind) leaves every event variant table exactly as after the first run, and, for
any table keyed on a unique column, re-inserting a row whose transaction hash is
already present is silently dropped — the operation yields the unchanged table, not
an error (its type has no error outcome). -/
theorem replay_inserts_no_duplicate_rows :
    (∀ (chainId : String) (cfg : ChainConfig) (db : DBState)
        (events : List ProcessedEvent),
      (processEvents chainId cfg (processEvents chainId cfg db events) events).xenBurns
          = (processEvents chainId cfg db events).xenBurns
      ∧ (processEvents chainId cfg (processEvents chainId cfg db events) events).nftPositions
          = (processEvents chainId cfg db events).nftPositions
      ∧ (processEvents chainId cfg (processEvents chainId cfg db events) events).swapBurns
          = (processEvents chainId cfg db events).swapBurns
      ∧ (processEvents chainId cfg (processEvents chainId cfg db events) events).liquidityAdds
          = (processEvents chainId cfg db events).liquidityAdds)
    ∧ (∀ (α : Type) (key : α → String) (t : List α) (r : α),
        insertOnConflictDoNothing key (insertOnConflictDoNothing key t r) r
          = insertOnConflictDoNothing key t r) := by
  constructor
  · intro chainId cfg db events
    by_cases h : events.isEmpty
    · simp [processEvents, h]
    · simp only [processEvents, h, if_false, Bool.false_eq_true]
      exact ⟨insertMany_idem _ _ _, insertMany_idem _ _ _, insertMany_idem _ _ _,
        insertMany_idem _ _ _⟩
  · intro α key t r
    exact insert_key_present key _ r (insert_gains_key key t r)

/-! ### Claim C4 — derived aggregates are recomputed even for dropped rows -/

/-- C4: in every call to `processEvents`, the stream of `update_user_stats`
invocations grows by exactly one call per grouped xen-burn, NFT-position and
swap-burn record (in that order, and none for liquidity records) — for every prior
database state `db`, including one already containing all the rows, in which case
the `ON CONFLICT DO NOTHING` inserts are dropped but the aggregate calls are still
made. -/
theorem user_stats_called_once_per_record (chainId : String) (cfg : ChainConfig)
    (db : DBState) (events : List ProcessedEvent) :
    (processEvents chainId cfg db events).userStatsCalls
      = db.userStatsCalls
        ++ ((groupEvents cfg events).xenBurns.map (burnStatsCall chainId))
        ++ ((groupEvents cfg events).nftPositions.map (nftStatsCall chainId))
        ++ ((groupEvents cfg events).swapBurns.map (swapStatsCall chainId)) := by
  by_cases h : events.isEmpty
  · have : events = [] := by
      cases events with
      | nil => rfl
      | cons a l => simp [List.isEmpty] at h
    subst this
    simp [processEvents, groupEvents]
  · simp [processEvents, h]

/-! ### Claim C6 — zero-record batches -/

/-- A Transfer of the Base XEN token whose recipient is not the minter: it decodes
to no event record, but it is a fetched event, so `processEvents` still logs it. -/
def otherTransfer : RawEvent :=
  { address := "0xffcbF84650cE02DaFE96926B37a0ac5E34932fa5"
    eventName := "Transfer"
    blockNumber := 29193700
    transactionHash := "0xaaa111"
    args := { toAddr := some "0x1234567890123456789012345678901234567890"
              fromAddr := some "0x2222222222222222222222222222222222222222"
              value := some 5 } }

/-- Counterexample to C6 as stated: a batch holding one non-qualifying Transfer
decodes to zero event records in every variant, yet `processEvents` does not skip
persistence — the resulting database state differs from the initial one (a
processing-log row is written and `update_chain_stats` is called).  Persistence is
skipped entirely only when the batch fetched zero raw events. -/
theorem zero_record_batch_counterexample :
    ((groupEvents baseChain [toProcessedEvent baseChain 1700000000 otherTransfer]).xenBurns = []
      ∧ (groupEvents baseChain [toProcessedEvent baseChain 1700000000 otherTransfer]).nftPositions = []
      ∧ (groupEvents baseChain [toProcessedEvent baseChain 1700000000 otherTransfer]).swapBurns = []
      ∧ (groupEvents baseChain [toProcessedEvent baseChain 1700000000 otherTransfer]).liquidityAdds = [])
    ∧ processEvents "8453" baseChain {} [toProcessedEvent baseChain 1700000000 otherTransfer]
        ≠ ({} : DBState) := by decide

/-- C6 (amended): a successfully processed batch that decodes to zero event records
still advances the watermark — in memory and in the `chains` row — to the batch's
end block, and leaves all four event variant tables unchanged; the processing log
still receives one row per fetched raw event, and only a batch with zero raw events
skips persistence entirely. -/
theorem zero_record_batch_advances_watermark (chainId : String) (cfg : ChainConfig)
    (g : IndexerConfig) (latestBlock w : Nat) (st : IndexerState)
    (events : List ProcessedEvent)
    (hw : st.lastProcessedBlock = some w) (hw0 : w ≠ 0) (hlt : latestBlock > w)
    (hx : (groupEvents cfg events).xenBurns = [])
    (hn : (groupEvents cfg events).nftPositions = [])
    (hs : (groupEvents cfg events).swapBurns = [])
    (hl : (groupEvents cfg events).liquidityAdds = []) :
    ((indexLoopIter chainId cfg g latestBlock st (.ok events)).state.lastProcessedBlock
        = some (min (w + effectiveBatchSize cfg g) latestBlock))
    ∧ ((indexLoopIter chainId cfg g latestBlock st (.ok events)).state.db.lastIndexedBlock
        = some (min (w + effectiveBatchSize cfg g) latestBlock))
    ∧ ((indexLoopIter chainId cfg g latestBlock st (.ok events)).state.db.xenBurns
        = st.db.xenBurns)
    ∧ ((indexLoopIter chainId cfg g latestBlock st (.ok events)).state.db.nftPositions
        = st.db.nftPositions)
    ∧ ((indexLoopIter chainId cfg g latestBlock st (.ok events)).state.db.swapBurns
        = st.db.swapBurns)
    ∧ ((indexLoopIter chainId cfg g latestBlock st (.ok events)).state.db.liquidityAdds
        = st.db.liquidityAdds)
    ∧ ((indexLoopIter chainId cfg g latestBlock st (.ok events)).state.db.eventLog
        = st.db.eventLog ++ (groupEvents cfg events).eventLogs)
    ∧ (events = [] →
        (indexLoopIter chainId cfg g latestBlock st (.ok events)).state.db
          = { st.db with
              lastIndexedBlock := some (min (w + effectiveBatchSize cfg g) latestBlock) }) := by
  simp only [indexLoopIter, hw]
  rw [if_neg hw0, if_pos hlt]
  by_cases h : events.isEmpty
  · have hnil : events = [] := by
      cases events with
      | nil => rfl
      | cons a l => simp [List.isEmpty] at h
    subst hnil
    simp [processEvents, groupEvents]
  · simp only [processEvents, h, if_false, Bool.false_eq_true, hx, hn, hs, hl,
      insertManyOnConflictDoNothing, List.foldl_nil]
    have hnil : ¬ events = [] := by
      intro hc; subst hc; simp [List.isEmpty] at h
    simp [hnil]

/-- Witness for the amended C6: a batch containing one non-qualifying Transfer on
Base advances the watermark to the end block while every variant table stays
empty. -/
theorem zero_record_batch_advances_watermark_witness :
    ((indexLoopIter "8453" baseChain indexerConfigDefaults 29193800
        { lastProcessedBlock := some 29193700, db := {} }
        (.ok [toProcessedEvent baseChain 1700000000 otherTransfer])).state.lastProcessedBlock
      = some (min (29193700 + effectiveBatchSize baseChain indexerConfigDefaults) 29193800))
    ∧ ((indexLoopIter "8453" baseChain indexerConfigDefaults 29193800
        { lastProcessedBlock := some 29193700, db := {} }
        (.ok [toProcessedEvent baseChain 1700000000 otherTransfer])).state.db.xenBurns = []) :=
  ⟨(zero_record_batch_advances_watermark "8453" baseChain indexerConfigDefaults 29193800
      29193700 { lastProcessedBlock := some 29193700, db := {} }
      [toProcessedEvent baseChain 1700000000 otherTransfer]
      rfl (by decide) (by decide) (by decide) (by decide) (by decide) (by decide)).1,
   (zero_record_batch_advances_watermark "8453" baseChain indexerConfigDefaults 29193800
      29193700 { lastProcessedBlock := some 29193700, db := {} }
      [toProcessedEvent baseChain 1700000000 otherTransfer]
      rfl (by decide) (by decide) (by decide) (by decide) (by decide) (by decide)).2.2.1⟩

/-! ### Claim C10 — Transfer classification -/

/-- C10: a Transfer emitted by the chain's XEN token contract decodes to a Burn
record exactly when its `to` argument, compared case-insensitively, is the
burn/mint (minter) contract address — in which case the row is submitted to the
xen-burns table via the conflict-guarded insert; any other such Transfer
contributes to no event variant table and only adds a processing-log entry (plus
the once-per-batch `update_chain_stats` call). -/
theorem transfer_is_burn_iff_sent_to_minter (chainId : String) (cfg : ChainConfig)
    (db : DBState) (e : RawEvent) (ts : Nat)
    (haddr : lowerStr e.address = lowerStr cfg.contracts.xen)
    (_hname : e.eventName = "Transfer") :
    ((∃ a, e.args.toAddr = some a ∧ lowerStr a = lowerStr cfg.contracts.xburnMinter) →
      groupEvents cfg [toProcessedEvent cfg ts e]
        = { xenBurns := [mkXenBurnRow (toProcessedEvent cfg ts e)]
            eventLogs := [mkEventLogRow cfg (toProcessedEvent cfg ts e)] }
      ∧ (processEvents chainId cfg db [toProcessedEvent cfg ts e]).xenBurns
          = insertOnConflictDoNothing XenBurnRow.txHash db.xenBurns
              (mkXenBurnRow (toProcessedEvent cfg ts e)))
    ∧ ((∀ a, e.args.toAddr = some a → lowerStr a ≠ lowerStr cfg.contracts.xburnMinter) →
      groupEvents cfg [toProcessedEvent cfg ts e]
        = { eventLogs := [mkEventLogRow cfg (toProcessedEvent cfg ts e)] }
      ∧ processEvents chainId cfg db [toProcessedEvent cfg ts e]
          = { db with
              eventLog := db.eventLog ++ [mkEventLogRow cfg (toProcessedEvent cfg ts e)]
              chainStatsCalls := db.chainStatsCalls + 1 }) := by
  have htag : (toProcessedEvent cfg ts e).contract = ContractTag.xen := by
    simp [toProcessedEvent, contractTagOf, haddr]
  constructor
  · rintro ⟨a, ha, hla⟩
    have hburn : isBurnTransfer cfg (toProcessedEvent cfg ts e) = true := by
      have hta : (toProcessedEvent cfg ts e).event.args.toAddr = some a := ha
      simp [isBurnTransfer, htag, hta, hla]
    constructor
    · simp [groupEvents, groupStep, hburn]
    · simp [processEvents, groupEvents, groupStep, hburn,
        insertManyOnConflictDoNothing]
  · intro hno
    have hburn : isBurnTransfer cfg (toProcessedEvent cfg ts e) = false := by
      unfold isBurnTransfer
      cases hta : (toProcessedEvent cfg ts e).event.args.toAddr with
      | none => simp [hta]
      | some a =>
        have : e.args.toAddr = some a := hta
        simp [hta, hno a this]
    have hnft : ((toProcessedEvent cfg ts e).contract == ContractTag.nft) = false := by
      simp [htag]
    have hswap : ((toProcessedEvent cfg ts e).contract == ContractTag.swapAndBurn) = false := by
      simp [htag]
    have hliq : ((toProcessedEvent cfg ts e).contract == ContractTag.liquidityAdded) = false := by
      simp [htag]
    constructor
    · simp [groupEvents, groupStep, hburn, hnft, hswap, hliq]
    · simp [processEvents, groupEvents, groupStep, hburn, hnft, hswap, hliq,
        insertManyOnConflictDoNothing]

/-- A Transfer of the Base XEN token (address in upper case) to the minter address
(also in a different case), exercising the case-insensitive comparisons. -/
def qualifyingTransfer : RawEvent :=
  { address := "0xFFCBF84650CE02DAFE96926B37A0AC5E34932FA5"
    eventName := "Transfer"
    blockNumber := 29193701
    transactionHash := "0xbbb222"
    args := { toAddr := some "0xE89AFDEFEBDBA033F6E750615F0A0F1A37C78C4A"
              fromAddr := some "0x3333333333333333333333333333333333333333"
              value := some 42 } }

/-- Witness for C10: on Base, a Transfer whose `to` is the minter address in a
different letter case decodes to exactly one Burn record. -/
theorem transfer_is_burn_iff_sent_to_minter_witness :
    groupEvents baseChain [toProcessedEvent baseChain 1700000001 qualifyingTransfer]
      = { xenBurns := [mkXenBurnRow (toProcessedEvent baseChain 1700000001 qualifyingTransfer)]
          eventLogs :=
            [mkEventLogRow baseChain (toProcessedEvent baseChain 1700000001 qualifyingTransfer)] } :=
  ((transfer_is_burn_iff_sent_to_minter "8453" baseChain {} qualifyingTransfer 1700000001
      (by decide) rfl).1
    ⟨"0xE89AFDEFEBDBA033F6E750615F0A0F1A37C78C4A", rfl, by decide⟩).1

/-! ### Claim C5 — retry/backoff policy -/

/-- The transient class exactly as claim C5 words it (the §4.1 list): rate-limit,
too-many-requests, exceeded, timeout, connection-refused, generic network error.
Second definition written from the claim, for comparison with
`isTransientBatchError` (which `processBatch` actually uses). -/
def isTransientClaimedC5 (msg : String) : Bool :=
  strIncludes msg "rate limit" || strIncludes msg "too many requests" ||
    strIncludes msg "exceeded" || strIncludes msg "timeout" ||
    strIncludes msg "econnrefused" || strIncludes msg "network error"

/-- The retry loop exactly as claim C5 words it: the claimed transient class, and
the configurable `maxRetries` (default 5) as ceiling.  Second definition written
from the claim, for comparison with `processBatchRun`. -/
def processBatchRunClaimedC5 (g : IndexerConfig) (retryCount : Nat) :
    List (Option String) → List Nat × Except String Unit
  | [] => ([], .ok ())
  | o :: rest =>
    match o with
    | none => ([], .ok ())
    | some msg =>
      if isTransientClaimedC5 msg = true ∧ retryCount < g.maxRetries then
        let r := processBatchRunClaimedC5 g (retryCount + 1) rest
        (backoffDelay g retryCount :: r.1, r.2)
      else ([], .error msg)

/-- Counterexample to C5 as stated.  First: a connection-refused failure is in the
claim's transient class and would be retried (here: succeed on the retry), but
`processBatch` does not classify it as transient and propagates it at once.
Second: with seven consecutive timeout failures the claim's ceiling (configurable
maxRetries, default 5) propagates the error, but the code retries up to the fixed
`MAX_RETRIES = 10` and succeeds on the eighth attempt. -/
theorem retry_policy_counterexample :
    ((processBatchRun indexerConfigDefaults 0 [some "connect econnrefused"]).2
        = .error "connect econnrefused"
      ∧ (processBatchRunClaimedC5 indexerConfigDefaults 0 [some "connect econnrefused"]).2
        = .ok ())
    ∧ ((processBatchRun indexerConfigDefaults 0 (List.replicate 7 (some "timeout"))).2
        = .ok ()
      ∧ (processBatchRunClaimedC5 indexerConfigDefaults 0 (List.replicate 7 (some "timeout"))).2
        = .error "timeout") :=
  ⟨⟨rfl, rfl⟩, rfl, rfl⟩

/-- C5 (amended): a batch failure whose message contains one of `rate limit`,
`429`, `exceeded`, `too many requests`, `timeout` is retried on the same batch
after sleeping `min(retryDelay * 2^attempt, maxBackoffDelay)`, up to the fixed
ceiling `MAX_RETRIES = 10` (connection-refused and generic network errors are not
in `processBatch`'s transient class); beyond the ceiling, or for a non-transient
failure, the error propagates, `backoffDelay` never exceeds the cap, and the
indexing loop then leaves the watermark unadvanced and re-polls the same batch
after one `pollingInterval`. -/
theorem retry_policy_matches_code :
    (∀ (g : IndexerConfig) (k : Nat) (msg : String) (rest : List (Option String)),
      isTransientBatchError msg = true → k < MAX_RETRIES →
      processBatchRun g k (some msg :: rest)
        = (backoffDelay g k :: (processBatchRun g (k + 1) rest).1,
           (processBatchRun g (k + 1) rest).2))
    ∧ (∀ (g : IndexerConfig) (k : Nat) (msg : String) (rest : List (Option String)),
        isTransientBatchError msg = false ∨ MAX_RETRIES ≤ k →
        processBatchRun g k (some msg :: rest) = ([], .error msg))
    ∧ (∀ (g : IndexerConfig) (k : Nat), backoffDelay g k ≤ g.maxBackoffDelay)
    ∧ (∀ (chainId : String) (cfg : ChainConfig) (g : IndexerConfig)
        (latestBlock w : Nat) (st : IndexerState) (msg : String),
        st.lastProcessedBlock = some w → w ≠ 0 → latestBlock > w →
        indexLoopIter chainId cfg g latestBlock st (.error msg)
          = { state := st
              processedRange := some (w + 1, min (w + effectiveBatchSize cfg g) latestBlock)
              sleepMs := g.pollingInterval }) := by
  refine ⟨?_, ?_, ?_, ?_⟩
  · intro g k msg rest h1 h2
    simp [processBatchRun, h1, h2]
  · intro g k msg rest h
    have hcond : ¬ (isTransientBatchError msg = true ∧ k < MAX_RETRIES) := by
      rcases h with h | h
      · simp [h]
      · intro hc; omega
    simp [processBatchRun, hcond]
  · intro g k
    exact Nat.min_le_right _ _
  · intro chainId cfg g latestBlock w st msg hw hw0 hlt
    simp only [indexLoopIter, hw]
    rw [if_neg hw0, if_pos hlt]

/-- Witness for the amended C5: a timeout at attempt 0 is retried after the base
delay and succeeds; a timeout at attempt 10 propagates; the backoff is capped; a
failed batch leaves the loop state unchanged with the same range due next poll. -/
theorem retry_policy_matches_code_witness :
    processBatchRun indexerConfigDefaults 0 [some "timeout"] = ([5000], .ok ())
    ∧ processBatchRun indexerConfigDefaults 10 [some "timeout"] = ([], .error "timeout")
    ∧ backoffDelay indexerConfigDefaults 4 ≤ 60000
    ∧ indexLoopIter "8453" baseChain indexerConfigDefaults 29193680
        { lastProcessedBlock := some 29193679, db := {} } (.error "boom")
        = { state := { lastProcessedBlock := some 29193679, db := {} }
            processedRange := some (29193680, 29193680)
            sleepMs := 15000 } := by
  refine ⟨?_, ?_, ?_, ?_⟩
  · rw [retry_policy_matches_code.1 indexerConfigDefaults 0 "timeout" [] (by decide) (by decide)]
    rfl
  · exact retry_policy_matches_code.2.1 indexerConfigDefaults 10 "timeout" []
      (Or.inr (by decide))
  · exact retry_policy_matches_code.2.2.1 indexerConfigDefaults 4
  · rw [retry_policy_matches_code.2.2.2 "8453" baseChain indexerConfigDefaults 29193680
      29193679 { lastProcessedBlock := some 29193679, db := {} } "boom" rfl (by decide)
      (by decide)]
    decide

/-! ### Claim C7 — endpoint-switch debounce -/

/-- C7: a switch request arriving less than `minSwitchInterval` after the last
switch leaves the pool unchanged, so two failures on the active endpoint less than
the minimum interval apart cause at most one switch between them. -/
theorem switch_debounced (minI t1 t2 : Nat) (st : PoolState) (h : t2 - t1 < minI) :
    ((if (switchProvider minI t1 st).2 then 1 else 0)
        + (if (switchProvider minI t2 (switchProvider minI t1 st).1).2 then 1 else 0) ≤ 1)
    ∧ (∀ (now : Nat) (st' : PoolState), now - st'.lastProviderSwitch < minI →
        switchProvider minI now st' = (st', false)) := by
  have guard : ∀ (now : Nat) (st' : PoolState), now - st'.lastProviderSwitch < minI →
      switchProvider minI now st' = (st', false) := fun now st' h' => by
    simp [switchProvider, h']
  refine ⟨?_, guard⟩
  rcases hsp : switchProvider minI t1 st with ⟨s1, b1⟩
  cases b1 with
  | false =>
    simp only [Bool.false_eq_true, if_false, Nat.zero_add]
    split <;> omega
  | true =>
    have hl : s1.lastProviderSwitch = t1 := by
      unfold switchProvider at hsp
      split at hsp
      · injection hsp with h1 h2; exact Bool.noConfusion h2
      · split at hsp
        · injection hsp with h1 h2; exact Bool.noConfusion h2
        · injection hsp with h1 h2; rw [← h1]
    have hs2 : switchProvider minI t2 s1 = (s1, false) := guard t2 s1 (by rw [hl]; exact h)
    simp [hs2]

/-- A two-endpoint pool used to witness the debounce. -/
def poolTwo : PoolState :=
  { health := [("https://a.example", ⟨0, 0, 0, 50, true⟩),
               ("https://b.example", ⟨0, 0, 0, 30, true⟩)]
    currentProviderUrl := "https://a.example"
    lastProviderSwitch := 0 }

/-- Witness for C7: switch requests at 20s and 25s with a 10s debounce perform at
most one switch. -/
theorem switch_debounced_witness :
    25000 - 20000 < 10000
    ∧ ((if (switchProvider 10000 20000 poolTwo).2 then 1 else 0)
        + (if (switchProvider 10000 25000 (switchProvider 10000 20000 poolTwo).1).2
            then 1 else 0) ≤ 1) :=
  ⟨by decide, (switch_debounced 10000 20000 25000 poolTwo (by decide)).1⟩

/-! ### Claim C8 — switch target selection -/

/-- C8: past the debounce, a switch picks, among the currently healthy endpoints
other than the active one, one with the lowest recorded latency; with no healthy
candidate the pool keeps its current endpoint — after any switch attempt the single
active endpoint is either unchanged or one of the pool's endpoints. -/
theorem switch_picks_lowest_latency (minI now : Nat) (st : PoolState)
    (hg : ¬ now - st.lastProviderSwitch < minI) :
    (st.health.filter (fun p => p.2.isHealthy && p.1 != st.currentProviderUrl) = [] →
      switchProvider minI now st = (st, false))
    ∧ (st.health.filter (fun p => p.2.isHealthy && p.1 != st.currentProviderUrl) ≠ [] →
      (switchProvider minI now st).2 = true
      ∧ (∃ eh : EndpointHealth,
          ((switchProvider minI now st).1.currentProviderUrl, eh)
            ∈ st.health.filter (fun p => p.2.isHealthy && p.1 != st.currentProviderUrl)
          ∧ ∀ q ∈ st.health.filter (fun p => p.2.isHealthy && p.1 != st.currentProviderUrl),
              eh.latency ≤ q.2.latency)
      ∧ (switchProvider minI now st).1.currentProviderUrl ≠ st.currentProviderUrl
      ∧ (switchProvider minI now st).1.health = st.health)
    ∧ ((switchProvider minI now st).1.currentProviderUrl = st.currentProviderUrl
      ∨ ∃ eh, ((switchProvider minI now st).1.currentProviderUrl, eh) ∈ st.health) := by
  set F := st.health.filter (fun p => p.2.isHealthy && p.1 != st.currentProviderUrl) with hF
  have hcand : healthyCandidates st
      = F.mergeSort (fun a b => a.2.latency ≤ b.2.latency) := rfl
  rcases hm : healthyCandidates st with _ | ⟨⟨u, eh⟩, tail⟩
  · have hFnil : F = [] := by
      have hperm := List.mergeSort_perm F (fun a b => a.2.latency ≤ b.2.latency)
      rw [← hcand, hm] at hperm
      exact (hperm.symm).eq_nil
    have hsw : switchProvider minI now st = (st, false) := by
      unfold switchProvider
      rw [if_neg hg, hm]
    exact ⟨fun _ => hsw, fun hne => absurd hFnil hne, Or.inl (by rw [hsw])⟩
  · have hsw : switchProvider minI now st
        = ({ st with currentProviderUrl := u, lastProviderSwitch := now }, true) := by
      unfold switchProvider
      rw [if_neg hg, hm]
    have hmem : (u, eh) ∈ F.mergeSort (fun a b => a.2.latency ≤ b.2.latency) := by
      rw [← hcand, hm]
      exact List.mem_cons_self _ _
    have hmemF : (u, eh) ∈ F := List.mem_mergeSort.mp hmem
    have htrans : ∀ (a b c : String × EndpointHealth),
        decide (a.2.latency ≤ b.2.latency) = true →
        decide (b.2.latency ≤ c.2.latency) = true →
        decide (a.2.latency ≤ c.2.latency) = true := by
      intro a b c hab hbc
      simp only [decide_eq_true_eq] at *
      omega
    have htotal : ∀ (a b : String × EndpointHealth),
        (decide (a.2.latency ≤ b.2.latency) || decide (b.2.latency ≤ a.2.latency)) = true := by
      intro a b
      simp only [Bool.or_eq_true, decide_eq_true_eq]
      exact Nat.le_total _ _
    have hpair := List.sorted_mergeSort htrans htotal F
    rw [← hcand, hm] at hpair
    have hhead := (List.pairwise_cons.mp hpair).1
    have hmin : ∀ q ∈ F, eh.latency ≤ q.2.latency := by
      intro q hq
      have hq' : q ∈ ((u, eh) :: tail : List (String × EndpointHealth)) := by
        rw [← hm, hcand]
        exact List.mem_mergeSort.mpr hq
      rcases List.mem_cons.mp hq' with h | h
      · rw [h]
      · simpa [decide_eq_true_eq] using hhead q h
    have hne : u ≠ st.currentProviderUrl := by
      have := (List.mem_filter.mp hmemF).2
      simp only [Bool.and_eq_true, bne_iff_ne, ne_eq] at this
      exact this.2
    refine ⟨fun hFe => absurd hFe ?_, fun _ => ⟨by rw [hsw], ⟨eh, by rw [hsw]; exact hmemF,
      hmin⟩, by rw [hsw]; exact hne, by rw [hsw]⟩, Or.inr ⟨eh, by
        rw [hsw]; exact List.mem_of_mem_filter hmemF⟩⟩
    intro hFe
    rw [hFe] at hmemF
    cases hmemF

/-- A three-endpoint pool (active endpoint unhealthy, two healthy spares) used to
witness the switch-target selection. -/
def poolThree : PoolState :=
  { health := [("https://a.example", ⟨0, 0, 3, 10, false⟩),
               ("https://b.example", ⟨0, 0, 0, 50, true⟩),
               ("https://c.example", ⟨0, 0, 0, 30, true⟩)]
    currentProviderUrl := "https://a.example"
    lastProviderSwitch := 0 }

/-- Witness for C8: with healthy spares available and the debounce elapsed, the
pool does switch. -/
theorem switch_picks_lowest_latency_witness :
    (switchProvider 10000 20000 poolThree).2 = true :=
  ((switch_picks_lowest_latency 10000 20000 poolThree (by decide)).2.1 (by decide)).1

/-! ### Claim C9 — health snapshot on failure -/

/-- C9: when a tick's height query (or any later step) for a chain fails, the
chain's persisted snapshot is upserted with `healthy=false`, the error message, and
null blocks-behind and RPC latency; the check still produces its single upsert
(total function — nothing propagates), and within one tick each chain's snapshot is
produced independently of any other chain's failure. -/
theorem health_failure_upserts_unhealthy_snapshot :
    (∀ chainId url msg : String,
      checkChainHealth chainId url (.failed msg)
        = { chainId := chainId, isHealthy := false, errorMessage := some msg
            blocksBehind := none, rpcLatencyMs := none, currentRpcUrl := url })
    ∧ (∀ entries : List (String × String × HealthQueryOutcome),
        (checkAllChains entries).length = entries.length)
    ∧ (∀ (pre post : List (String × String × HealthQueryOutcome)) (c u msg : String),
        checkAllChains (pre ++ (c, u, .failed msg) :: post)
          = checkAllChains pre ++ checkChainHealth c u (.failed msg) :: checkAllChains post) := by
  refine ⟨fun chainId url msg => rfl, fun entries => List.length_map _ _, ?_⟩
  intro pre post c u msg
  simp [checkAllChains]

end XBurnIndex
